import Mathlib

/-!
A shallow embedding of the multi-account coordinator logic of
`AccountManager.py` (module `AccountManagerMod`), covering:

* `_resolve_account` — selector resolution over the roster (positional
  index, numeric user id, username);
* `_refresh_accounts` — the roster cache with its 60-second freshness
  window, together with the primary-account marking used by `listacccmd`
  (`acc["client"] == self._client`);
* `_ensure_in_chat` — the four-step chat-membership fallback chain;
* the fan-out loops of `reportcmd` and `joincmd`;
* the interleaved repeat loop of `spamacccmd` with its pacing sleeps;
* the repeat/count token parsing of `saycmd` and `spamacccmd`.

Python strings are modelled as `List Char` (the selectors and usernames in
scope are ASCII, so `str.isdigit` is modelled as ASCII decimal digits).
Network calls are modelled by oracles giving each call site's outcome: a
call that may raise is modelled by a `Bool` or an `Option` result, and a
code path that ends in an uncaught exception is modelled by
`PyResult.raised`.  Sleep durations are modelled in hundredths of a
second, so the literals `0.15` and `0.1` of `spamacccmd` become `15`
and `10`.
-/

/-- Outcome of running a Python snippet that may end in an uncaught
exception: either a value or a raised error (for `_resolve_account`,
the `ValueError` that `int` can raise). -/
inductive PyResult (α : Type) where
  | ok (val : α)
  | raised
  deriving DecidableEq, Repr

/-- The fields of a messaging-service user object that the coordinator
reads.  Both fields are read with `getattr(user, field, None)`, hence the
`Option`: `none` models an absent attribute or `None` value. -/
structure TUser where
  id : Option Int
  username : Option (List Char)
  deriving DecidableEq, Repr

/-- One roster entry: the dict `{"client": c, "user": me}` built by
`_refresh_accounts`.  `σ` is the type of client/session handles; equality
on `σ` models Python reference equality between client objects. -/
structure RosterEntry (σ : Type) where
  client : σ
  user : TUser
  deriving DecidableEq, Repr

/-- Python `str.isdigit()` for ASCII strings: nonempty and every
character a decimal digit. -/
def pyIsDigit (s : List Char) : Bool :=
  !s.isEmpty && s.all (fun c => c.isDigit)

/-- Python `str.lower()`, characterwise (ASCII). -/
def pyLower (s : List Char) : List Char := s.map Char.toLower

/-- Python `str.lstrip(c)` with a single-character argument: drop every
leading occurrence of that character. -/
def pyLstrip (c : Char) (s : List Char) : List Char :=
  s.dropWhile (fun x => x == c)

/-- Value of a decimal digit string, as Python `int()` computes it on a
string of digits. -/
def digitsVal (s : List Char) : Nat :=
  s.foldl (fun a c => 10 * a + (c.toNat - 48)) 0

/-- Python `int()` on the string shapes reachable in `_resolve_account`:
an optional single leading sign followed by at least one digit parses;
anything else (in particular two or more leading signs) raises
`ValueError`, modelled as `none`. -/
def pyInt? (s : List Char) : Option Int :=
  match s with
  | '-' :: rest => if pyIsDigit rest then some (-(digitsVal rest : Int)) else none
  | '+' :: rest => if pyIsDigit rest then some ((digitsVal rest : Int)) else none
  | _ => if pyIsDigit s then some ((digitsVal s : Int)) else none

/-- Truthiness of an optional Python string: `None` and the empty string
are falsy. -/
def pyTruthy (s : Option (List Char)) : Bool :=
  match s with
  | some l => !l.isEmpty
  | none => false

/-- The username scan of `_resolve_account` (its final loop): index of
the first entry whose `username` attribute is truthy and whose lowercased
username equals `sel`. -/
def handleScan {σ : Type} (sel : List Char) (accounts : List (RosterEntry σ)) :
    Option Nat :=
  accounts.findIdx? (fun acc =>
    match acc.user.username with
    | some u => !u.isEmpty && (pyLower u == sel)
    | none => false)

/-- The user-id scan of `_resolve_account` (its middle loop): index of
the first entry whose `id` attribute equals `uid`.  An absent `id`
(`None`) never equals an `int`. -/
def idScan {σ : Type} (uid : Int) (accounts : List (RosterEntry σ)) :
    Option Nat :=
  accounts.findIdx? (fun acc => acc.user.id == some uid)

/-- `AccountManagerMod._resolve_account(selector, accounts)`.

The source, line by line: an empty selector returns `None`; `raw` is the
selector and `sel` its lowercased form with all leading `@` stripped
(`selector.lower().lstrip("@")`).  If `raw.isdigit()` and the value is
between 1 and `len(accounts)`, the 1-based position is returned.  Next,
if `raw.lstrip("-").isdigit()`, the code runs `uid = int(raw)` — which
raises `ValueError` when `raw` has two or more leading `-` signs, since
`lstrip` removed all of them but `int` accepts at most one — and scans
for a matching user id.  Finally the username scan runs, and `None` is
returned if nothing matched. -/
def resolveAccount {σ : Type} (selector : List Char)
    (accounts : List (RosterEntry σ)) : PyResult (Option Nat) :=
  if selector.isEmpty then PyResult.ok none
  else
    let raw := selector
    let sel := pyLstrip '@' (pyLower selector)
    if pyIsDigit raw = true ∧ 1 ≤ digitsVal raw ∧ digitsVal raw ≤ accounts.length then
      PyResult.ok (some (digitsVal raw - 1))
    else if pyIsDigit (pyLstrip '-' raw) = true then
      match pyInt? raw with
      | none => PyResult.raised
      | some uid =>
        match idScan uid accounts with
        | some i => PyResult.ok (some i)
        | none => PyResult.ok (handleScan sel accounts)
    else PyResult.ok (handleScan sel accounts)

/-- Decimal digit string of `n`, most significant digit first: the fuel
argument (`fuel ≥ n` suffices) makes the recursion structural. -/
def natToCharsAux (fuel n : Nat) : List Char :=
  match fuel with
  | 0 => []
  | fuel + 1 =>
    if n = 0 then []
    else natToCharsAux fuel (n / 10) ++ [Char.ofNat (n % 10 + 48)]

/-- The decimal digit string of `n` (empty for `n = 0`; the claims only
use it for `n ≥ 1`). -/
def natToChars (n : Nat) : List Char := natToCharsAux n n

/-- The handle normalization as the specification words it: lowercase,
then strip exactly ONE leading `@`.  Declared only to compare the spec's
wording with the code's `lstrip("@")`, which strips all of them. -/
def specNormalizeOneAt (s : List Char) : List Char :=
  match pyLower s with
  | '@' :: rest => rest
  | r => r

/-- The roster cache state: `self._accounts_cache` and
`self._accounts_cache_ts`.  Time is in the same units as the code's
`time.monotonic()` seconds. -/
structure CacheState (σ : Type) where
  cache : List (RosterEntry σ)
  ts : Nat
  deriving DecidableEq, Repr

/-- `clients = getattr(self, "allclients", None) or [self._client]`:
a missing or empty `allclients` list is falsy and falls back to the
coordinator's own client. -/
def enumerateClients {σ : Type} (allclients : Option (List σ))
    (selfClient : σ) : List σ :=
  match allclients with
  | some (c :: cs) => c :: cs
  | _ => [selfClient]

/-- The rebuild loop of `_refresh_accounts`: query every client with
`get_me`, skipping (with `continue`) any client whose query raises —
`getMe c = none` models the raise. -/
def buildRoster {σ : Type} (clients : List σ) (getMe : σ → Option TUser) :
    List (RosterEntry σ) :=
  clients.filterMap (fun c => (getMe c).map (fun me => { client := c, user := me }))

/-- `AccountManagerMod._refresh_accounts(force)`.  Returns the roster,
the new cache state, and whether the sessions were re-queried.  The
source gate is `not force and self._accounts_cache and
time.monotonic() - self._accounts_cache_ts < 60`; otherwise the cache is
rebuilt from every enumerated client and the timestamp is stamped. -/
def refreshAccounts {σ : Type} (force : Bool) (allclients : Option (List σ))
    (selfClient : σ) (getMe : σ → Option TUser) (now : Nat)
    (st : CacheState σ) : List (RosterEntry σ) × CacheState σ × Bool :=
  if force = false ∧ st.cache.isEmpty = false ∧ now - st.ts < 60 then
    (st.cache, st, false)
  else
    let accounts := buildRoster (enumerateClients allclients selfClient) getMe
    (accounts, { cache := accounts, ts := now }, true)

/-- Number of roster entries marked primary: `listacccmd` marks an entry
with the main tag exactly when `acc["client"] == self._client`. -/
def primaryCount {σ : Type} [BEq σ] (roster : List (RosterEntry σ))
    (selfClient : σ) : Nat :=
  (roster.filter (fun acc => acc.client == selfClient)).length

/-- Outcomes of every external call site inside `_ensure_in_chat`, in
source order.  A `Bool` field is `true` when that call succeeds and
`false` when it raises (or, for `joinLinkOk`, when `_join_with_link`
returns `False`); the two `Option (List Char)` fields are the values the
code tests for truthiness. -/
structure EnsureEnv where
  /-- `client.get_permissions(chat, "me")` — the initial membership check. -/
  permSelf : Bool
  /-- `getattr(chat, "username", None)`. -/
  chatUsername : Option (List Char)
  /-- `JoinChannelRequest(channel=username)`. -/
  joinChannelOk : Bool
  /-- Result of `_export_invite_link(chat)` (that helper catches its own
  exceptions and returns `None` on failure). -/
  inviteLink : Option (List Char)
  /-- Result of `_join_with_link(client, invite_link)` (that helper
  catches its own exceptions and returns `False` on failure). -/
  joinLinkOk : Bool
  /-- `client.get_permissions(chat, "me")` — recheck after the link join. -/
  permAfterLink : Bool
  /-- `self._client and self._client != client`. -/
  mainDistinct : Bool
  /-- `self._client.get_permissions(chat, "me")`. -/
  permMain : Bool
  /-- `InviteToChannelRequest(channel=chat, users=[user_entity])`. -/
  inviteOk : Bool
  /-- `client.get_permissions(chat, "me")` — final check after invite. -/
  permFinal : Bool
  deriving DecidableEq, Repr

/-- External calls `_ensure_in_chat` can issue, for tracking side
effects. -/
inductive EnsureStep where
  | checkPerm
  | joinByUsername
  | exportLink
  | joinByLink
  | recheckPerm
  | mainPerm
  | inviteUser
  | finalPerm
  deriving DecidableEq, Repr

/-- Calls issued once step (a) has failed and step (b) has run: the
username join is attempted exactly when the chat's username is truthy. -/
def ensureTraceB (env : EnsureEnv) : List EnsureStep :=
  EnsureStep.checkPerm ::
    (if pyTruthy env.chatUsername then [EnsureStep.joinByUsername] else [])

/-- Calls issued once step (c) has run: the invite link is always
exported; it is consumed only if truthy, and the permission recheck runs
only if `_join_with_link` returned `True`. -/
def ensureTraceC (env : EnsureEnv) : List EnsureStep :=
  ensureTraceB env ++ [EnsureStep.exportLink] ++
    (if pyTruthy env.inviteLink then
      EnsureStep.joinByLink ::
        (if env.joinLinkOk then [EnsureStep.recheckPerm] else [])
    else [])

/-- Calls issued once step (d) has run: the main client acts only when
it is distinct, the invite only after its permission check succeeded,
and the final check only after the invite succeeded. -/
def ensureTraceD (env : EnsureEnv) : List EnsureStep :=
  ensureTraceC env ++
    (if env.mainDistinct then
      EnsureStep.mainPerm ::
        (if env.permMain then
          EnsureStep.inviteUser ::
            (if env.inviteOk then [EnsureStep.finalPerm] else [])
        else [])
    else [])

/-- `AccountManagerMod._ensure_in_chat(client, chat, user_entity)`:
result and the list of external calls issued.  Every `except` clause in
the source swallows the error and falls through, so the function is
total over all call-site outcomes and its only results are `True` and
`False`. -/
def ensureInChat (env : EnsureEnv) : Bool × List EnsureStep :=
  if env.permSelf then (true, [EnsureStep.checkPerm])
  else if pyTruthy env.chatUsername && env.joinChannelOk then
    (true, ensureTraceB env)
  else if pyTruthy env.inviteLink && env.joinLinkOk && env.permAfterLink then
    (true, ensureTraceC env)
  else if env.mainDistinct && env.permMain && env.inviteOk && env.permFinal then
    (true, ensureTraceD env)
  else (false, ensureTraceD env)

/-- The per-account fan-out loop of `reportcmd`, parametrised by the
outcome of each call site: `inChat a` is the result of
`_ensure_in_chat`, `entityOk a` is whether `get_input_entity` succeeds,
and `reportOk a j` is whether the `ReportRequest` for reason index `j`
succeeds.  Returns the success counter and, for each account that
reached the report stage, the account paired with its per-reason report
outcomes.  The source increments `success` after the reason loop
unconditionally: a raised `ReportRequest` is swallowed by
`except Exception: pass` and the account still counts. -/
def reportLoop {α : Type} (accounts : List α) (inChat : α → Bool)
    (entityOk : α → Bool) (reportOk : α → Nat → Bool) (reasons : Nat) :
    Nat × List (α × List Bool) :=
  match accounts with
  | [] => (0, [])
  | a :: rest =>
    let tail := reportLoop rest inChat entityOk reportOk reasons
    if inChat a then
      if entityOk a then
        (tail.1 + 1, (a, (List.range reasons).map (reportOk a)) :: tail.2)
      else tail
    else tail

/-- The per-account loop of `joincmd`: `ok` is incremented exactly when
`_ensure_in_chat` returned `True`; a `False` result only triggers a
failure message and the loop continues. -/
def joinLoop {α : Type} (accounts : List α) (joined : α → Bool) : Nat :=
  match accounts with
  | [] => 0
  | a :: rest => (if joined a then 1 else 0) + joinLoop rest joined

/-- Events of the `spamacccmd` send loop.  Sleep durations are in
hundredths of a second. -/
inductive SpamEvent (σ : Type) where
  | send (acc : σ)
  | sleep (centis : Nat)
  deriving DecidableEq, Repr

/-- The `asyncio.sleep(0.15)` between sends, in hundredths of a second. -/
def spamPaceDelay : Nat := 15

/-- The `asyncio.sleep(0.1)` at the end of each full round, in
hundredths of a second. -/
def spamRoundDelay : Nat := 10

/-- Iteration `i` of the `spamacccmd` loop: send from
`target_accounts[i % len(target_accounts)]` (the send's own exceptions
are swallowed by `except Exception: pass`, so the attempt is recorded
either way), then sleep 0.15 if more than one account participates, then
sleep 0.1 if `count > 3` and a full round just completed. -/
def spamStep {σ : Type} (targets : List σ) (count i : Nat) (dflt : σ) :
    List (SpamEvent σ) :=
  SpamEvent.send (targets.getD (i % targets.length) dflt) ::
    ((if targets.length > 1 then [SpamEvent.sleep spamPaceDelay] else []) ++
     (if count > 3 ∧ i % targets.length = targets.length - 1 then
        [SpamEvent.sleep spamRoundDelay]
      else []))

/-- The whole `for i in range(count)` loop of `spamacccmd` as an event
trace.  With a nonempty target list the trace is the concatenation of
the per-iteration steps; with `count ≥ 1` and no targets the indexing
`i % len(target_accounts)` would divide by zero, modelled as `none`
(this is unreachable in the command, which bails out earlier when there
are no accounts). -/
def spamTrace {σ : Type} (targets : List σ) (count : Nat) :
    Option (List (SpamEvent σ)) :=
  if count = 0 then some []
  else
    match targets with
    | [] => none
    | t :: ts =>
      some ((List.range count).flatMap (fun i => spamStep (t :: ts) count i t))

/-- The sends attempted in a trace, in order. -/
def sendsOf {σ : Type} (tr : List (SpamEvent σ)) : List σ :=
  tr.filterMap (fun e =>
    match e with
    | SpamEvent.send c => some c
    | SpamEvent.sleep _ => none)

/-- The repeat parsing of `saycmd`: if there are at least two text
tokens and the last one is all digits, the repeat count is
`max(1, int(last))` and the last token is dropped from the text;
otherwise the repeat count is 1.  Returns the count and the remaining
text tokens. -/
def sayParseRepeat (textParts : List (List Char)) :
    Nat × List (List Char) :=
  if textParts.length > 1 ∧ pyIsDigit (textParts.getLast?.getD []) = true then
    (max 1 (digitsVal (textParts.getLast?.getD [])), textParts.dropLast)
  else (1, textParts)

/-- The count parsing of `spamacccmd`: the last argument must be all
digits (otherwise the command replies with the bad-count error, modelled
as `none`); the count is `max(1, int(last))`. -/
def spamParseCount (lastArg : List Char) : Option Nat :=
  if pyIsDigit lastArg = true then some (max 1 (digitsVal lastArg)) else none

/-! ## Helper lemmas -/

/-- A character built from a digit value below 10 is a decimal digit and
has the expected code point. -/
theorem charOfNat_digit (d : Nat) (hd : d < 10) :
    (Char.ofNat (d + 48)).isDigit = true ∧ (Char.ofNat (d + 48)).toNat = d + 48 := by
  interval_cases d <;> exact ⟨by decide, by decide⟩

/-- With enough fuel, `natToCharsAux` produces only digit characters and
`digitsVal`-folds back to the number it printed. -/
theorem natToCharsAux_spec (fuel : Nat) :
    ∀ n a, n ≤ fuel →
      (∀ c ∈ natToCharsAux fuel n, c.isDigit = true) ∧
      List.foldl (fun acc c => 10 * acc + (c.toNat - 48)) a (natToCharsAux fuel n)
        = a * 10 ^ (natToCharsAux fuel n).length + n := by
  induction fuel with
  | zero =>
    intro n a hn
    interval_cases n
    simp [natToCharsAux]
  | succ fuel ih =>
    intro n a hn
    by_cases h0 : n = 0
    · subst h0
      simp [natToCharsAux]
    · have hdiv : n / 10 ≤ fuel := by
        have : n / 10 < n := Nat.div_lt_self (Nat.pos_of_ne_zero h0) (by norm_num)
        omega
      have hmod : n % 10 < 10 := Nat.mod_lt _ (by norm_num)
      have hch := charOfNat_digit (n % 10) hmod
      constructor
      · intro c hc
        rw [natToCharsAux] at hc
        rw [if_neg h0] at hc
        rcases List.mem_append.mp hc with hmem | hmem
        · exact (ih (n / 10) a hdiv).1 c hmem
        · rcases List.mem_singleton.mp hmem with rfl
          exact hch.1
      · rw [natToCharsAux, if_neg h0, List.foldl_append]
        rw [(ih (n / 10) a hdiv).2]
        have hdm : 10 * (n / 10) + n % 10 = n := Nat.div_add_mod n 10
        simp only [List.foldl_cons, List.foldl_nil, List.length_append,
          List.length_singleton, hch.2]
        have : n % 10 + 48 - 48 = n % 10 := by omega
        rw [this]
        calc 10 * (a * 10 ^ (natToCharsAux fuel (n / 10)).length + n / 10) + n % 10
            = a * (10 ^ (natToCharsAux fuel (n / 10)).length * 10)
                + (10 * (n / 10) + n % 10) := by ring
          _ = a * 10 ^ ((natToCharsAux fuel (n / 10)).length + 1) + n := by
                rw [hdm, pow_succ]

/-- The decimal string of a positive number is nonempty. -/
theorem natToChars_ne_nil (n : Nat) (h : n ≠ 0) : natToChars n ≠ [] := by
  unfold natToChars
  cases n with
  | zero => exact absurd rfl h
  | succ m =>
    rw [natToCharsAux, if_neg h]
    simp

/-- The decimal string of a positive number passes `str.isdigit`. -/
theorem pyIsDigit_natToChars (n : Nat) (h : n ≠ 0) :
    pyIsDigit (natToChars n) = true := by
  have h1 := natToChars_ne_nil n h
  have h2 := (natToCharsAux_spec n n 0 le_rfl).1
  have h3 : (natToChars n).isEmpty = false := by
    cases hx : natToChars n
    · exact absurd hx h1
    · rfl
  simp only [pyIsDigit, Bool.and_eq_true, Bool.not_eq_true', List.all_eq_true]
  exact ⟨h3, fun c hc => h2 c hc⟩

/-- `int()` of the decimal string of `n` gives back `n`. -/
theorem digitsVal_natToChars (n : Nat) : digitsVal (natToChars n) = n := by
  have := (natToCharsAux_spec n n 0 le_rfl).2
  simpa [digitsVal, natToChars] using this

/-- A string accepted by `str.isdigit` has no leading `-` to strip. -/
theorem pyLstrip_dash_of_digits (s : List Char) (h : pyIsDigit s = true) :
    pyLstrip '-' s = s := by
  cases s with
  | nil => rfl
  | cons c t =>
    have hc : c.isDigit = true := by
      simp only [pyIsDigit, Bool.and_eq_true, List.all_cons] at h
      exact h.2.1
    have hne : (c == '-') = false := by
      cases hb : (c == '-')
      · rfl
      · have hcd : c = '-' := eq_of_beq hb
        subst hcd
        exact absurd hc (by decide)
    simp [pyLstrip, List.dropWhile_cons, hne]

/-! ## Selector resolution (C1, C3, C4) -/

/-- C1: the claim says selector resolution is total — it always returns
found/not-found without raising, including for selectors made of several
leading sign characters followed by digits.  The code violates exactly
that family: `"--5".lstrip("-").isdigit()` is true, so `int("--5")` runs
and raises `ValueError` (the guard strips every `-` while `int` accepts
at most one).  This evaluates `_resolve_account` at the failing input,
on an empty roster and on a roster that even contains user id `-5`. -/
theorem resolve_double_sign_raises :
    resolveAccount (("--5").toList) ([] : List (RosterEntry Nat)) = PyResult.raised ∧
    resolveAccount (("--5").toList)
      ([{ client := 0, user := { id := some (-5), username := none } }] :
        List (RosterEntry Nat)) = PyResult.raised :=
  ⟨by decide, by decide⟩

/-- C3: for every roster and every `k` with `1 ≤ k ≤ len(roster)`,
resolving the decimal digit string of `k` returns position `k - 1`: the
positional branch runs first, so this holds regardless of the rosters'
user ids — in particular even when `k` equals some entry's numeric id. -/
theorem resolve_positional_priority {σ : Type} (accounts : List (RosterEntry σ))
    (k : Nat) (h1 : 1 ≤ k) (h2 : k ≤ accounts.length) :
    resolveAccount (natToChars k) accounts = PyResult.ok (some (k - 1)) := by
  have hd : pyIsDigit (natToChars k) = true := pyIsDigit_natToChars k (by omega)
  have hv : digitsVal (natToChars k) = k := digitsVal_natToChars k
  have hne : (natToChars k).isEmpty = false := by
    cases hx : natToChars k
    · exact absurd hx (natToChars_ne_nil k (by omega))
    · rfl
  simp [resolveAccount, hne, hd, hv, h1, h2]

/-- Witness for C3 at `k = 1` on a two-entry roster whose second entry
has numeric id 1: the positional interpretation wins and yields
position 0. -/
theorem resolve_positional_priority_witness :
    resolveAccount (natToChars 1)
      ([{ client := 0, user := { id := some 2, username := none } },
        { client := 1, user := { id := some 1, username := none } }] :
        List (RosterEntry Nat)) = PyResult.ok (some 0) :=
  resolve_positional_priority _ 1 (by decide) (by decide)

/-- C4 counterexample: the claim says the selector is normalized by
stripping exactly ONE leading `@`; the code's `lstrip("@")` strips all
of them.  On the roster `[entry with handle "@foo"]` and the selector
`"@@foo"`, the claim's normalization (`specNormalizeOneAt`) finds the
entry at position 0, but `_resolve_account` returns not-found. -/
theorem resolve_handle_one_strip_refuted :
    handleScan (specNormalizeOneAt (("@@foo").toList))
      ([{ client := 0, user := { id := none, username := some (("@foo").toList) } }] :
        List (RosterEntry Nat)) = some 0 ∧
    resolveAccount (("@@foo").toList)
      ([{ client := 0, user := { id := none, username := some (("@foo").toList) } }] :
        List (RosterEntry Nat)) = PyResult.ok none :=
  ⟨by decide, by decide⟩

/-- C4 (amended): handle resolution normalizes the selector by
lowercasing and stripping ALL leading `@` characters, then returns the
first roster entry whose truthy handle equals the normalized value
case-insensitively (`handleScan`); and `resolve("@Foo", R)` equals
`resolve("foo", R)` on every roster.  The first part applies to every
selector that does not enter the digit branches (its `lstrip("-")` form
is not all digits). -/
theorem resolve_handle_normalization {σ : Type} (accounts : List (RosterEntry σ))
    (sel : List Char) (hne : sel ≠ [])
    (hnd : pyIsDigit (pyLstrip '-' sel) = false) :
    resolveAccount sel accounts
      = PyResult.ok (handleScan (pyLstrip '@' (pyLower sel)) accounts) ∧
    ∀ (accounts2 : List (RosterEntry σ)),
      resolveAccount (("@Foo").toList) accounts2
        = resolveAccount (("foo").toList) accounts2 := by
  constructor
  · have hd : pyIsDigit sel = false := by
      cases hb : pyIsDigit sel
      · rfl
      · rw [pyLstrip_dash_of_digits sel hb, hb] at hnd
        exact absurd hnd (by simp)
    have hne' : sel.isEmpty = false := by
      cases sel
      · exact absurd rfl hne
      · rfl
    simp [resolveAccount, hne', hd, hnd]
  · intro accounts2
    rfl

/-- Witness for C4 (amended): `"@Asia"` resolves to the entry whose
handle is `"Asia"`. -/
theorem resolve_handle_normalization_witness :
    resolveAccount (("@Asia").toList)
      ([{ client := 0, user := { id := some 7, username := some (("Asia").toList) } }] :
        List (RosterEntry Nat)) = PyResult.ok (some 0) := by
  have h := (resolve_handle_normalization
    ([{ client := 0, user := { id := some 7, username := some (("Asia").toList) } }] :
      List (RosterEntry Nat)) (("@Asia").toList) (by decide) (by decide)).1
  rw [h]
  decide

/-! ## Fan-out executor (C2) -/

/-- C2 counterexample: over accounts `[0, 1, 2]` — all in chat and all
resolvable — with the `ReportRequest` for account 1 raising for both
reasons, `reportcmd` still counts 3 successes, not the 2 the claim
predicts, because `success += 1` runs after the reason loop has swallowed
the exception. -/
theorem report_fanout_refuted :
    (reportLoop [0, 1, 2] (fun _ => true) (fun _ => true)
        (fun a _ => a != 1) 2).1 = 3 ∧
    (reportLoop [0, 1, 2] (fun _ => true) (fun _ => true)
        (fun a _ => a != 1) 2).2
      = [(0, [true, true]), (1, [false, false]), (2, [true, true])] ∧
    (reportLoop [0, 1, 2] (fun _ => true) (fun _ => true)
        (fun a _ => a != 1) 2).1 ≠ 2 :=
  ⟨by decide, by decide, by decide⟩

/-- C2 (amended): in `reportcmd`, a failure of the membership guarantee
or of peer resolution for one account is counted as a non-success and
does not abort the remaining accounts — the success count is the number
of accounts passing both guards and the report requests are issued for
exactly those accounts, whatever the report outcomes (`reportOk` does
not appear on the right-hand sides) — while a raised `ReportRequest`
itself is swallowed and the account still counts as a success.  In
`joincmd`, a `False` from `_ensure_in_chat` is counted as a non-success
and the loop continues over every account. -/
theorem report_fanout_summary {α : Type} (accounts : List α)
    (inChat : α → Bool) (entityOk : α → Bool) (reportOk : α → Nat → Bool)
    (reasons : Nat) (joined : α → Bool) :
    (reportLoop accounts inChat entityOk reportOk reasons).1
        = (accounts.filter (fun a => inChat a && entityOk a)).length ∧
    (reportLoop accounts inChat entityOk reportOk reasons).2.map Prod.fst
        = accounts.filter (fun a => inChat a && entityOk a) ∧
    joinLoop accounts joined = (accounts.filter joined).length := by
  refine ⟨?_, ?_, ?_⟩
  · induction accounts with
    | nil => rfl
    | cons a rest ih =>
      cases h1 : inChat a <;> cases h2 : entityOk a <;>
        simp [reportLoop, List.filter_cons, h1, h2, ih]
  · induction accounts with
    | nil => rfl
    | cons a rest ih =>
      cases h1 : inChat a <;> cases h2 : entityOk a <;>
        simp [reportLoop, List.filter_cons, h1, h2, ih]
  · induction accounts with
    | nil => rfl
    | cons a rest ih =>
      cases h1 : joined a
      · simp [joinLoop, List.filter_cons, h1, ih]
      · simp [joinLoop, List.filter_cons, h1, ih]
        omega

/-! ## Roster cache (C5) -/

/-- C5: `_refresh_accounts` returns the cached roster unchanged, without
querying any session, exactly when `force` is false, the cache is
nonempty and fewer than 60 seconds have elapsed; in every other case it
queries every enumerated client (failures skipped by `buildRoster`),
installs the result as the new cache in enumeration order and stamps the
time; and a call with `force = true` always re-queries. -/
theorem refresh_cache_policy {σ : Type} (force : Bool)
    (allclients : Option (List σ)) (selfClient : σ)
    (getMe : σ → Option TUser) (now : Nat) (st : CacheState σ) :
    (force = false ∧ st.cache.isEmpty = false ∧ now - st.ts < 60 →
      refreshAccounts force allclients selfClient getMe now st
        = (st.cache, st, false)) ∧
    (¬(force = false ∧ st.cache.isEmpty = false ∧ now - st.ts < 60) →
      refreshAccounts force allclients selfClient getMe now st
        = (buildRoster (enumerateClients allclients selfClient) getMe,
           { cache := buildRoster (enumerateClients allclients selfClient) getMe,
             ts := now }, true)) ∧
    (force = true →
      (refreshAccounts force allclients selfClient getMe now st).2.2 = true) := by
  refine ⟨fun h => ?_, fun h => ?_, fun h => ?_⟩
  · rw [refreshAccounts, if_pos h]
  · rw [refreshAccounts, if_neg h]
  · subst h
    simp [refreshAccounts]

/-- Witness for C5: with `force = false`, a nonempty cache and 30 of 60
seconds elapsed, the cached roster is returned and no session is
queried. -/
theorem refresh_cache_policy_witness :
    refreshAccounts false (some [0, 1]) 0
      (fun _ => some { id := some 1, username := none }) 30
      { cache := [{ client := 0, user := { id := some 1, username := none } }],
        ts := 0 }
      = ([{ client := 0, user := { id := some 1, username := none } }],
         { cache := [{ client := 0, user := { id := some 1, username := none } }],
           ts := 0 },
         false) :=
  (refresh_cache_policy false (some [0, 1]) 0
    (fun _ => some { id := some 1, username := none }) 30
    { cache := [{ client := 0, user := { id := some 1, username := none } }],
      ts := 0 }).1 (by exact ⟨rfl, rfl, by omega⟩)

/-! ## Interleaved repeat dispatcher (C6, C9) and count clamping (C10) -/

/-- `sendsOf` distributes over concatenation. -/
theorem sendsOf_append {σ : Type} (l₁ l₂ : List (SpamEvent σ)) :
    sendsOf (l₁ ++ l₂) = sendsOf l₁ ++ sendsOf l₂ := by
  simp [sendsOf]

/-- One iteration of the spam loop attempts exactly one send, from the
interleaved account. -/
theorem sendsOf_spamStep {σ : Type} (targets : List σ) (count i : Nat)
    (dflt : σ) :
    sendsOf (spamStep targets count i dflt)
      = [targets.getD (i % targets.length) dflt] := by
  unfold spamStep sendsOf
  rw [List.filterMap_cons]
  simp only [List.filterMap_append]
  split <;> split <;> simp

/-- With a nonempty target list, the spam trace exists and its attempted
sends are exactly `targets[k % len(targets)]` for `k = 0, …, n-1`, for
any choice of the (unused, in-bounds) `getD` default. -/
theorem spamTrace_sends_aux {σ : Type} (targets : List σ) (h : targets ≠ [])
    (n : Nat) :
    ∃ tr, spamTrace targets n = some tr ∧
      ∀ dflt, sendsOf tr
        = (List.range n).map (fun k => targets.getD (k % targets.length) dflt) := by
  match targets, h with
  | t :: ts, _ =>
    by_cases hn : n = 0
    · subst hn
      exact ⟨[], by simp [spamTrace], fun dflt => by simp [sendsOf]⟩
    · refine ⟨(List.range n).flatMap (fun i => spamStep (t :: ts) n i t),
        by simp [spamTrace, hn], fun dflt => ?_⟩
      have hmain : ∀ m,
          sendsOf ((List.range m).flatMap (fun i => spamStep (t :: ts) n i t))
            = (List.range m).map (fun k => (t :: ts).getD (k % (t :: ts).length) t) := by
        intro m
        induction m with
        | zero => simp [sendsOf]
        | succ m ih =>
          rw [List.range_succ]
          simp only [List.flatMap_append, List.map_append, sendsOf_append, ih,
            List.flatMap_cons, List.flatMap_nil, List.append_nil, List.map_cons,
            List.map_nil, sendsOf_spamStep]
      rw [hmain n]
      apply List.map_congr_left
      intro k _
      have hlt : k % (t :: ts).length < (t :: ts).length :=
        Nat.mod_lt _ (by simp)
      simp only [List.getD_eq_getElem?_getD, List.getElem?_eq_getElem hlt,
        Option.getD_some]

/-- C6: for every nonempty account list and total count `n`, the k-th
action (0-indexed) of the `spamacccmd` loop is attempted by account
`k mod len(accounts)`. -/
theorem spam_round_robin {σ : Type} (targets : List σ) (h : targets ≠ [])
    (n : Nat) :
    ∃ tr, spamTrace targets n = some tr ∧
      ∀ dflt, sendsOf tr
        = (List.range n).map (fun k => targets.getD (k % targets.length) dflt) :=
  spamTrace_sends_aux targets h n

/-- Witness for C6: dispatching 5 actions over `[a, b] = [0, 1]`
attempts sends in the exact sequence `a, b, a, b, a`. -/
theorem spam_round_robin_witness :
    ∃ tr, spamTrace ([0, 1] : List Nat) 5 = some tr ∧
      sendsOf tr = [0, 1, 0, 1, 0] := by
  obtain ⟨tr, h1, h2⟩ := spam_round_robin ([0, 1] : List Nat) (by decide) 5
  exact ⟨tr, h1, (h2 0).trans (by decide)⟩

/-- C9 counterexample: on `[a, b] = [0, 1]` with `count = 5` the loop
does insert an extra pause after each completed round, but its duration
(`0.1` s, i.e. `spamRoundDelay = 10`) is strictly SHORTER than the
between-send pacing delay (`0.15` s, i.e. `spamPaceDelay = 15`),
contradicting the claim that the round pause is longer. -/
theorem spam_pacing_refuted :
    spamTrace ([0, 1] : List Nat) 5
      = some [SpamEvent.send 0, SpamEvent.sleep spamPaceDelay,
              SpamEvent.send 1, SpamEvent.sleep spamPaceDelay,
              SpamEvent.sleep spamRoundDelay,
              SpamEvent.send 0, SpamEvent.sleep spamPaceDelay,
              SpamEvent.send 1, SpamEvent.sleep spamPaceDelay,
              SpamEvent.sleep spamRoundDelay,
              SpamEvent.send 0, SpamEvent.sleep spamPaceDelay] ∧
    spamRoundDelay < spamPaceDelay :=
  ⟨by decide, by decide⟩

/-- C9 (amended): when more than one account participates, a fixed
pacing delay of 0.15 s follows every send, and when `count > 3` an
additional — strictly shorter — pause of 0.1 s is inserted each time a
full round of all participating accounts completes. -/
theorem spam_pacing_structure {σ : Type} (targets : List σ) (count : Nat)
    (h1 : 1 < targets.length) (h2 : 3 < count) :
    ∃ tr, spamTrace targets count = some tr ∧
      (∀ dflt, tr = (List.range count).flatMap (fun i =>
        SpamEvent.send (targets.getD (i % targets.length) dflt) ::
          SpamEvent.sleep spamPaceDelay ::
          (if i % targets.length = targets.length - 1 then
            [SpamEvent.sleep spamRoundDelay]
          else []))) ∧
      spamRoundDelay < spamPaceDelay := by
  obtain ⟨t, ts, rfl⟩ : ∃ t ts, targets = t :: ts := by
    cases targets with
    | nil => simp at h1
    | cons t ts => exact ⟨t, ts, rfl⟩
  have hts : 0 < ts.length := by
    simp only [List.length_cons] at h1
    omega
  have hc0 : count ≠ 0 := by omega
  refine ⟨(List.range count).flatMap (fun i => spamStep (t :: ts) count i t),
    by simp [spamTrace, hc0], fun dflt => ?_, by decide⟩
  have hfun : (fun i => spamStep (t :: ts) count i t) = (fun i =>
      SpamEvent.send ((t :: ts).getD (i % (t :: ts).length) dflt) ::
        SpamEvent.sleep spamPaceDelay ::
        (if i % (t :: ts).length = (t :: ts).length - 1 then
          [SpamEvent.sleep spamRoundDelay]
        else [])) := by
    funext i
    have hlt : i % (t :: ts).length < (t :: ts).length :=
      Nat.mod_lt _ (by simp)
    have hgd : (t :: ts).getD (i % (t :: ts).length) t
        = (t :: ts).getD (i % (t :: ts).length) dflt := by
      simp only [List.getD_eq_getElem?_getD, List.getElem?_eq_getElem hlt,
        Option.getD_some]
    unfold spamStep
    rw [hgd]
    simp [hts, h2]
  rw [hfun]

/-- Witness for C9 (amended) at `[0, 1]` and `count = 5`: the concrete
trace, with the 0.15 s pace after every send and the 0.1 s round pause
after each of the two completed rounds. -/
theorem spam_pacing_structure_witness :
    ∃ tr, spamTrace ([0, 1] : List Nat) 5 = some tr ∧
      tr = [SpamEvent.send 0, SpamEvent.sleep 15,
            SpamEvent.send 1, SpamEvent.sleep 15, SpamEvent.sleep 10,
            SpamEvent.send 0, SpamEvent.sleep 15,
            SpamEvent.send 1, SpamEvent.sleep 15, SpamEvent.sleep 10,
            SpamEvent.send 0, SpamEvent.sleep 15] := by
  obtain ⟨tr, ha, hb, -⟩ :=
    spam_pacing_structure ([0, 1] : List Nat) 5 (by decide) (by decide)
  exact ⟨tr, ha, (hb 0).trans (by decide)⟩

/-- C10: a digit count token parses to `max(1, value)` in both `saycmd`
and `spamacccmd`; the parsed count is always at least 1, the token `"0"`
parses to 1, and with any nonempty target list a count of 1 produces
exactly one send attempt — never zero. -/
theorem repeat_count_clamped (tok : List Char) (h : pyIsDigit tok = true) :
    spamParseCount tok = some (max 1 (digitsVal tok)) ∧
    (∀ v, spamParseCount tok = some v → 1 ≤ v) ∧
    (∀ textParts, 1 ≤ (sayParseRepeat textParts).1) ∧
    spamParseCount (("0").toList) = some 1 ∧
    sayParseRepeat [("x").toList, ("0").toList] = (1, [("x").toList]) ∧
    (∀ (targets : List Nat), targets ≠ [] →
      ∃ tr, spamTrace targets 1 = some tr ∧ (sendsOf tr).length = 1) := by
  refine ⟨by simp [spamParseCount, h], ?_, ?_, by decide, by decide, ?_⟩
  · intro v hv
    have hs : spamParseCount tok = some (max 1 (digitsVal tok)) := by
      simp [spamParseCount, h]
    rw [hs] at hv
    injection hv with hv
    rw [← hv]
    exact Nat.le_max_left _ _
  · intro textParts
    unfold sayParseRepeat
    split
    · simp
    · simp
  · intro targets ht
    obtain ⟨tr, h1, h2⟩ := spamTrace_sends_aux targets ht 1
    cases targets with
    | nil => exact absurd rfl ht
    | cons t ts => exact ⟨tr, h1, by rw [h2 t]; simp⟩

/-- Witness for C10: the count token `"0"` yields exactly one send. -/
theorem repeat_count_clamped_witness :
    spamParseCount (("0").toList) = some 1 :=
  (repeat_count_clamped (("0").toList) (by decide)).2.2.2.1

/-! ## Chat-membership guarantor (C7) -/

/-- C7: `_ensure_in_chat` never raises — for every combination of
call-site outcomes it returns a boolean.  If the initial permission
check succeeds it returns `True` immediately, having issued only that
check (no join or invite side effect); otherwise each step's failure is
swallowed and the next step runs, the result being `True` exactly when
one of the four steps succeeds and the boolean `False` — not an error —
when all steps are exhausted. -/
theorem ensure_membership_guarantor (env : EnsureEnv) :
    (env.permSelf = true → ensureInChat env = (true, [EnsureStep.checkPerm])) ∧
    (ensureInChat env).1
      = (env.permSelf || pyTruthy env.chatUsername && env.joinChannelOk
         || pyTruthy env.inviteLink && env.joinLinkOk && env.permAfterLink
         || env.mainDistinct && env.permMain && env.inviteOk && env.permFinal) := by
  constructor
  · intro h
    simp [ensureInChat, h]
  · unfold ensureInChat
    cases h1 : env.permSelf <;>
      cases h2 : pyTruthy env.chatUsername && env.joinChannelOk <;>
      cases h3 : pyTruthy env.inviteLink && env.joinLinkOk && env.permAfterLink <;>
      cases h4 : env.mainDistinct && env.permMain && env.inviteOk && env.permFinal <;>
      simp [h1, h2, h3, h4]

/-- Witness for C7: with the initial permission check succeeding and
every other call site failing, the guarantor returns `True` having
issued only the permission check. -/
theorem ensure_membership_guarantor_witness :
    ensureInChat
      { permSelf := true, chatUsername := none, joinChannelOk := false,
        inviteLink := none, joinLinkOk := false, permAfterLink := false,
        mainDistinct := false, permMain := false, inviteOk := false,
        permFinal := false } = (true, [EnsureStep.checkPerm]) :=
  (ensure_membership_guarantor _).1 rfl

/-! ## Primary-account invariant (C8) -/

/-- The number of primary-marked entries in a rebuilt roster equals the
number of enumerated clients that are the coordinator's own client and
whose identity query succeeded. -/
theorem primaryCount_buildRoster {σ : Type} [BEq σ] (clients : List σ)
    (getMe : σ → Option TUser) (selfClient : σ) :
    primaryCount (buildRoster clients getMe) selfClient
      = (clients.filter (fun c => c == selfClient && (getMe c).isSome)).length := by
  induction clients with
  | nil => rfl
  | cons c rest ih =>
    cases hg : getMe c with
    | none =>
      simpa [buildRoster, primaryCount, List.filterMap_cons, hg,
        List.filter_cons] using ih
    | some u =>
      cases hc : (c == selfClient) <;>
        simp [buildRoster, primaryCount, List.filterMap_cons, hg, hc,
          List.filter_cons] at ih ⊢ <;>
        omega

/-- C8 counterexample: a refresh can produce a nonempty roster with no
primary entry.  With `allclients = [0, 1]`, the coordinator running as
client 0, and client 0's `get_me` raising while client 1's succeeds, the
rebuilt roster is `[entry for client 1]` — nonempty, yet zero entries
satisfy `acc["client"] == self._client`, so `count(is_primary) = 0`,
not 1. -/
theorem refresh_primary_refuted :
    ((refreshAccounts true (some [0, 1]) 0
        (fun c => if c = 0 then none else some { id := some 1, username := none })
        0 { cache := [], ts := 0 }).1 ≠ []) ∧
    primaryCount ((refreshAccounts true (some [0, 1]) 0
        (fun c => if c = 0 then none else some { id := some 1, username := none })
        0 { cache := [], ts := 0 }).1) 0 = 0 :=
  ⟨by decide, by decide⟩

/-- C8 (amended): whenever a refresh actually rebuilds the roster (here
`force = true`), if the coordinator's own session occurs exactly once
among the enumerated clients and its identity query succeeds, then
exactly one roster entry is marked primary. -/
theorem refresh_primary_unique {σ : Type} [BEq σ] [LawfulBEq σ]
    (allclients : Option (List σ)) (selfClient : σ)
    (getMe : σ → Option TUser) (now : Nat) (st : CacheState σ)
    (h1 : (enumerateClients allclients selfClient).count selfClient = 1)
    (h2 : (getMe selfClient).isSome = true) :
    primaryCount ((refreshAccounts true allclients selfClient getMe now st).1)
      selfClient = 1 := by
  have hreq : (refreshAccounts true allclients selfClient getMe now st).1
      = buildRoster (enumerateClients allclients selfClient) getMe := by
    simp [refreshAccounts]
  rw [hreq, primaryCount_buildRoster]
  have hfil : (enumerateClients allclients selfClient).filter
        (fun c => c == selfClient && (getMe c).isSome)
      = (enumerateClients allclients selfClient).filter (fun c => c == selfClient) := by
    apply List.filter_congr
    intro a _
    cases hc : (a == selfClient)
    · simp
    · have ha : a = selfClient := eq_of_beq hc
      subst ha
      simp [h2]
  rw [hfil, ← List.countP_eq_length_filter, ← List.count_eq_countP]
  exact h1

/-- Witness for C8 (amended): two clients, the coordinator running as
client 0, both identity queries succeeding — exactly one primary. -/
theorem refresh_primary_unique_witness :
    primaryCount ((refreshAccounts true (some [0, 1]) 0
        (fun c => some { id := some (c + 1), username := none })
        0 { cache := [], ts := 0 }).1) 0 = 1 :=
  refresh_primary_unique (some [0, 1]) 0
    (fun c => some { id := some (c + 1), username := none })
    0 { cache := [], ts := 0 } (by decide) (by decide)
